import Mathlib

/-!
Shallow embedding of `src/game.py` (a pygame/pymunk physics sandbox) and
proofs of the spec's claims about it.

Python floats are modelled as exact rationals (`ℚ`); the arithmetic in the
embedded fragments consists of field operations only, which `ℚ` models
exactly.  Python's `int()` truncation toward zero is made explicit as
`truncInt`.  The pymunk physics engine is an external collaborator: only
the narrow slices of its API that the embedded code calls (2-D vectors,
point queries on a circle shape, space membership for bodies and
constraints) are modelled, following the documented behaviour of those
calls.
-/

set_option autoImplicit false

namespace Game

/-- A 2-D vector (pymunk `Vec2d` / Python number pair), over exact rationals. -/
abbrev Vec : Type := ℚ × ℚ

/-! ## Constants from `src/game.py` -/

def PLAYER_SIZE : ℚ := 50

def GRAVITY : ℚ := 900

def IMPULSE_STRENGTH : ℚ := 50

def HALF_IMPULSE : ℚ := IMPULSE_STRENGTH / 2

/-- The player circle's radius: `PLAYER_SIZE / 2` from `Player.__init__`. -/
def playerRadius : ℚ := PLAYER_SIZE / 2

/-- The player body's mass (`mass = 1` in `Player.__init__`). -/
def player_mass : ℚ := 1

/-! ## Coordinate transforms (`world_to_screen`, `screen_to_world`) -/

/-- Python's `int()` applied to a float: truncation toward zero. -/
def truncInt (q : ℚ) : ℤ := if 0 ≤ q then ⌊q⌋ else ⌈q⌉

/-- `world_to_screen(p, camera, surface)` from `src/game.py`.  The surface is
represented by its pixel width `w` and height `h` (what `surface.get_width()`
and `surface.get_height()` return); the result is the pair of truncated
pixel coordinates `int(x), int(y)`. -/
def world_to_screen (p camera : Vec) (w h : ℤ) : ℤ × ℤ :=
  let x : ℚ := (p.1 - camera.1) + (w : ℚ) / 2
  let y : ℚ := (h : ℚ) / 2 - (p.2 - camera.2)
  (truncInt x, truncInt y)

/-- `screen_to_world(p, camera, surface)` from `src/game.py`: no truncation,
the result is an exact (float) vector. -/
def screen_to_world (p : ℤ × ℤ) (camera : Vec) (w h : ℤ) : Vec :=
  (((p.1 : ℚ) - (w : ℚ) / 2) + camera.1, camera.2 - ((p.2 : ℚ) - (h : ℚ) / 2))

/-! ## Keyboard input (`Player.handle_input`) -/

/-- The snapshot of the four directional keys read by `handle_input`. -/
structure Keys where
  k_a : Bool
  k_d : Bool
  k_w : Bool
  k_s : Bool
deriving DecidableEq

/-- `body.apply_impulse_at_world_point(j, body.position)`: the impulse is
applied at the body's position, which coincides with its centre of gravity
(circle shape with zero offset), so the effect is purely linear:
`velocity += j / mass`. -/
def applyImpulse (v j : Vec) : Vec :=
  (v.1 + j.1 / player_mass, v.2 + j.2 / player_mass)

/-- `Player.handle_input(keys)` from `src/game.py`, as its effect on the
body's linear velocity: one impulse per held key, applied in source order
(`K_a`, `K_d`, `K_w`, `K_s`). -/
def handle_input (keys : Keys) (v : Vec) : Vec :=
  let v1 := if keys.k_a then applyImpulse v (-HALF_IMPULSE, 0) else v
  let v2 := if keys.k_d then applyImpulse v1 (HALF_IMPULSE, 0) else v1
  let v3 := if keys.k_w then applyImpulse v2 (0, HALF_IMPULSE) else v2
  if keys.k_s then applyImpulse v3 (0, -IMPULSE_STRENGTH) else v3

/-- The net impulse a key snapshot delivers: the velocity change of a body
starting at rest (mass 1, so impulse and velocity delta coincide). -/
def impulseOf (keys : Keys) : Vec := handle_input keys (0, 0)

/-- Squared Euclidean magnitude of a vector (used to compare impulse
magnitudes without square roots: `|u| = |v|/2` iff `4·|u|² = |v|²`). -/
def magSq (v : Vec) : ℚ := v.1 ^ 2 + v.2 ^ 2

def keysLeft : Keys := ⟨true, false, false, false⟩

def keysRight : Keys := ⟨false, true, false, false⟩

def keysUp : Keys := ⟨false, false, true, false⟩

def keysDown : Keys := ⟨false, false, false, true⟩

/-! ## Mouse drag state machine (`Player.start_drag` / `update_drag` / `end_drag`)

The pymunk `Space` is modelled by the parts of it the drag code touches:
the list of constraints currently added and whether the kinematic mouse
body is currently added.  `space.add` raises (pymunk asserts the object is
not already in the space) when handed an already-added object, and
`space.remove` raises when handed an object not in the space; a raising
call is modelled as `none` — the exception propagates out of the frame
loop and ends the process, so no further state is reachable through it. -/

/-- A `pymunk.PivotJoint(mouse_body, body, (0, 0), local_anchor)` as
configured by `start_drag`: anchor on the mouse body, anchor on the player
body, and its `max_force`. -/
structure Joint where
  anchorOnMouse : Vec
  localAnchor : Vec
  maxForce : ℚ
deriving DecidableEq

/-- The drag-relevant state of `Player` plus the space slice it mutates:
the player body's position, angle and linear velocity, the kinematic
mouse body's position and velocity, the `drag_joint` / `prev_mouse_pos`
helpers, and which of the joint and mouse body are currently in the space.
The body's angle is carried as its cosine/sine pair, which is all
`Vec2d.rotated` consumes. -/
structure PlayerState where
  bodyPos : Vec
  bodyVel : Vec
  angleCos : ℚ
  angleSin : ℚ
  mousePos : Vec
  mouseVel : Vec
  drag_joint : Option Joint
  prev_mouse_pos : Option Vec
  spaceJoints : List Joint
  mouseInSpace : Bool
deriving DecidableEq

/-- Squared Euclidean distance between two points. -/
def distSq (p q : Vec) : ℚ := (p.1 - q.1) ^ 2 + (p.2 - q.2) ^ 2

/-- The test `self.shape.point_query(pos).distance > 0` from `start_drag`.
pymunk's point query on a circle of radius `r` centred at the body's
position returns the signed distance `|pos - centre| - r` (negative inside
the shape); it is positive exactly when the squared distance exceeds `r²`,
which is how the test is phrased here to stay inside `ℚ`. -/
def pointQueryPositive (st : PlayerState) (pos : Vec) : Bool :=
  playerRadius ^ 2 < distSq pos st.bodyPos

/-- `Vec2d.rotated(θ)` for an angle given by its cosine `c` and sine `s`:
`(x·c - y·s, x·s + y·c)`. -/
def rotatedBy (v : Vec) (c s : ℚ) : Vec :=
  (v.1 * c - v.2 * s, v.1 * s + v.2 * c)

/-- `Player.start_drag(pos)` from `src/game.py`.  If the point query
reports positive distance the call returns immediately.  Otherwise it sets
the mouse body's position and `prev_mouse_pos` to `pos`, builds the pivot
joint with local anchor `(pos - body.position).rotated(-body.angle)` and
`max_force = 10000`, stores it in `drag_joint`, and calls
`space.add(mouse_body, drag_joint)` — which raises (modelled `none`) if
the mouse body is already in the space. -/
def start_drag (st : PlayerState) (pos : Vec) : Option PlayerState :=
  if pointQueryPositive st pos then some st
  else
    let anchor := rotatedBy (pos.1 - st.bodyPos.1, pos.2 - st.bodyPos.2)
      st.angleCos (-st.angleSin)
    let j : Joint := ⟨(0, 0), anchor, 10000⟩
    if st.mouseInSpace then none
    else some { st with
      mousePos := pos
      prev_mouse_pos := some pos
      drag_joint := some j
      spaceJoints := st.spaceJoints ++ [j]
      mouseInSpace := true }

/-- `Player.update_drag(pos, dt)` from `src/game.py`.  Returns immediately
when `drag_joint` is unset; otherwise substitutes `1e-6` for a
non-positive `dt`, sets the mouse body's velocity to
`(pos - prev_mouse_pos) / dt` and its position to `pos`, and records `pos`
as `prev_mouse_pos`.  Subscripting a `None` previous sample would raise
(modelled `none`); reachable dragging states always carry one. -/
def update_drag (st : PlayerState) (pos : Vec) (dt : ℚ) : Option PlayerState :=
  match st.drag_joint with
  | none => some st
  | some _ =>
    match st.prev_mouse_pos with
    | none => none
    | some prev =>
      let dt' := if dt ≤ 0 then (1 : ℚ) / 1000000 else dt
      let vel : Vec := (pos.1 - prev.1, pos.2 - prev.2)
      some { st with
        mouseVel := (vel.1 / dt', vel.2 / dt')
        mousePos := pos
        prev_mouse_pos := some pos }

/-- `Player.end_drag()` from `src/game.py`.  Returns immediately when
`drag_joint` is unset; otherwise copies the mouse body's velocity onto the
player body, calls `space.remove(drag_joint, mouse_body)` — raising
(modelled `none`) if either is not in the space — then clears
`drag_joint` and zeroes the mouse body's velocity. -/
def end_drag (st : PlayerState) : Option PlayerState :=
  match st.drag_joint with
  | none => some st
  | some j =>
    if j ∈ st.spaceJoints ∧ st.mouseInSpace then
      some { st with
        bodyVel := st.mouseVel
        spaceJoints := st.spaceJoints.erase j
        mouseInSpace := false
        drag_joint := none
        mouseVel := (0, 0) }
    else none

/-- One drag-controller call, for quantifying over call sequences. -/
inductive Op : Type
  | startOp (pos : Vec) : Op
  | updateOp (pos : Vec) (dt : ℚ) : Op
  | endOp : Op
deriving DecidableEq

/-- Dispatch one call. -/
def step (st : PlayerState) : Op → Option PlayerState
  | .startOp pos => start_drag st pos
  | .updateOp pos dt => update_drag st pos dt
  | .endOp => end_drag st

/-- Run a sequence of calls; `none` as soon as one raises. -/
def runOps (st : PlayerState) : List Op → Option PlayerState
  | [] => some st
  | op :: ops => (step st op).bind fun st2 => runOps st2 ops

/-- The `Player` as `Player.__init__` leaves it: body at
`(100, LEVEL_HEIGHT - 100)`, at rest, angle `0`, kinematic mouse body at
the origin and at rest, no drag joint, no previous sample, nothing
drag-related in the space. -/
def initPlayer : PlayerState :=
  { bodyPos := (100, 1100)
    bodyVel := (0, 0)
    angleCos := 1
    angleSin := 0
    mousePos := (0, 0)
    mouseVel := (0, 0)
    drag_joint := none
    prev_mouse_pos := none
    spaceJoints := []
    mouseInSpace := false }

/-! ## Level loading (`load_level`) -/

/-- One record of the level file: endpoints `a`, `b` and the optional
`friction` field. -/
structure SegmentRecord where
  a : Vec
  b : Vec
  friction : Option ℚ
deriving DecidableEq

/-- A `pymunk.Segment` created on the space's static body: endpoints,
segment radius, friction, and the fact that it is attached to the static
body. -/
structure SegmentShape where
  a : Vec
  b : Vec
  radius : ℚ
  onStaticBody : Bool
  friction : ℚ
deriving DecidableEq

/-- The per-record body of the loop in `load_level`:
`pymunk.Segment(space.static_body, a, b, 0)` with
`friction = seg.get("friction", 1.0)`. -/
def segOfRecord (seg : SegmentRecord) : SegmentShape :=
  { a := seg.a
    b := seg.b
    radius := 0
    onStaticBody := true
    friction := seg.friction.getD 1 }

/-- `load_level` from `src/game.py`, after parsing: one static segment per
record, in order, all added to the space. -/
def load_level (data : List SegmentRecord) : List SegmentShape :=
  data.map segOfRecord

/-! ## Helper lemmas -/

/-- Truncation toward zero moves a rational by less than one unit. -/
theorem abs_truncInt_sub_le (q : ℚ) : |(truncInt q : ℚ) - q| ≤ 1 := by
  unfold truncInt
  rcases le_or_lt 0 q with hq | hq
  · rw [if_pos hq, abs_le]
    have h1 := Int.floor_le q
    have h2 := Int.lt_floor_add_one q
    constructor <;> linarith
  · rw [if_neg (not_le.mpr hq), abs_le]
    have h1 := Int.le_ceil q
    have h2 := Int.ceil_lt_add_one q
    constructor <;> linarith

/-- Truncation is the identity on integers. -/
theorem truncInt_intCast (n : ℤ) : truncInt (n : ℚ) = n := by
  unfold truncInt
  split <;> simp

/-! ## Claim theorems -/

/-- C1: for every world point, camera position and viewport size, mapping
the point to the screen with `world_to_screen` and back with
`screen_to_world` lands within 1 unit of the original point in each
coordinate; the only error source is `world_to_screen`'s truncation to
integer pixels. -/
theorem C1_round_trip (p camera : Vec) (w h : ℤ) :
    |(screen_to_world (world_to_screen p camera w h) camera w h).1 - p.1| ≤ 1 ∧
    |(screen_to_world (world_to_screen p camera w h) camera w h).2 - p.2| ≤ 1 := by
  constructor
  · have he : (screen_to_world (world_to_screen p camera w h) camera w h).1 - p.1 =
        (truncInt ((p.1 - camera.1) + (w : ℚ) / 2) : ℚ) - ((p.1 - camera.1) + (w : ℚ) / 2) := by
      simp only [screen_to_world, world_to_screen]
      ring
    rw [he]
    exact abs_truncInt_sub_le _
  · have he : (screen_to_world (world_to_screen p camera w h) camera w h).2 - p.2 =
        ((h : ℚ) / 2 - (p.2 - camera.2)) - (truncInt ((h : ℚ) / 2 - (p.2 - camera.2)) : ℚ) := by
      simp only [screen_to_world, world_to_screen]
      ring
    rw [he, abs_sub_comm]
    exact abs_truncInt_sub_le _

/-- C10: for every integer screen point, camera position and viewport
size, `screen_to_world` followed by `world_to_screen` is the exact
identity: the world-space result is exact, and truncating it recovers the
original integer pixel coordinates. -/
theorem C10_screen_round_trip (s : ℤ × ℤ) (camera : Vec) (w h : ℤ) :
    world_to_screen (screen_to_world s camera w h) camera w h = s := by
  obtain ⟨s1, s2⟩ := s
  simp only [world_to_screen, screen_to_world]
  have hx : ((s1 : ℚ) - (w : ℚ) / 2 + camera.1) - camera.1 + (w : ℚ) / 2 = ((s1 : ℤ) : ℚ) := by
    ring
  have hy : (h : ℚ) / 2 - ((camera.2 - ((s2 : ℚ) - (h : ℚ) / 2)) - camera.2) = ((s2 : ℤ) : ℚ) := by
    ring
  rw [hx, hy, truncInt_intCast, truncInt_intCast]

/-- C2 (counterexample): the claim that the left/right impulses each have
half the magnitude of both the up and down impulses, with up and down both
at the full baseline magnitude, is false: the up key applies
`(0, HALF_IMPULSE)`, whose magnitude is 25, not the baseline 50. -/
theorem C2_counterexample :
    ¬ (4 * magSq (impulseOf keysLeft) = magSq (impulseOf keysUp) ∧
       4 * magSq (impulseOf keysRight) = magSq (impulseOf keysUp) ∧
       4 * magSq (impulseOf keysLeft) = magSq (impulseOf keysDown) ∧
       4 * magSq (impulseOf keysRight) = magSq (impulseOf keysDown) ∧
       magSq (impulseOf keysUp) = IMPULSE_STRENGTH ^ 2 ∧
       magSq (impulseOf keysDown) = IMPULSE_STRENGTH ^ 2) := by
  intro hcl
  have h1 := hcl.1
  norm_num [magSq, impulseOf, handle_input, applyImpulse, keysLeft, keysUp,
    HALF_IMPULSE, IMPULSE_STRENGTH, player_mass] at h1

/-- C2 (amended): in `handle_input` the left, right and up keys each apply
an impulse of half the baseline magnitude (`HALF_IMPULSE` = 25); only the
down key applies the full baseline magnitude (`IMPULSE_STRENGTH` = 50). -/
theorem C2_impulse_magnitudes :
    4 * magSq (impulseOf keysLeft) = magSq (impulseOf keysDown) ∧
    4 * magSq (impulseOf keysRight) = magSq (impulseOf keysDown) ∧
    4 * magSq (impulseOf keysUp) = magSq (impulseOf keysDown) ∧
    magSq (impulseOf keysDown) = IMPULSE_STRENGTH ^ 2 := by
  norm_num [magSq, impulseOf, handle_input, applyImpulse, keysLeft, keysRight,
    keysUp, keysDown, HALF_IMPULSE, IMPULSE_STRENGTH, player_mass]

/-- The joint `start_drag` builds when the player is grabbed at
`(110, 1100)` in its initial pose: local anchor `(10, 0)`, zero anchor on
the mouse body, `max_force = 10000`. -/
def dragJointInit : Joint := ⟨(0, 0), (10, 0), 10000⟩

/-- The state reached from `initPlayer` by `start_drag (110, 1100)`. -/
def draggingState : PlayerState :=
  { initPlayer with
    mousePos := (110, 1100)
    prev_mouse_pos := some (110, 1100)
    drag_joint := some dragJointInit
    spaceJoints := [dragJointInit]
    mouseInSpace := true }

/-- The joint `start_drag` builds from state `st` grabbed at `pos`. -/
def builtJoint (st : PlayerState) (pos : Vec) : Joint :=
  ⟨(0, 0), rotatedBy (pos.1 - st.bodyPos.1, pos.2 - st.bodyPos.2)
    st.angleCos (-st.angleSin), 10000⟩

/-- Branch lemma: a positive point query makes `start_drag` return
immediately. -/
theorem start_drag_of_pos (st : PlayerState) (pos : Vec)
    (hq : pointQueryPositive st pos = true) : start_drag st pos = some st := by
  unfold start_drag
  rw [hq]
  simp

/-- Branch lemma: a non-positive point query with the mouse body already
in the space makes `space.add` raise. -/
theorem start_drag_of_occupied (st : PlayerState) (pos : Vec)
    (hq : pointQueryPositive st pos = false) (hm : st.mouseInSpace = true) :
    start_drag st pos = none := by
  simp [start_drag, hq, hm]

/-- Branch lemma: a non-positive point query from a state whose mouse body
is not in the space starts the drag. -/
theorem start_drag_of_hit (st : PlayerState) (pos : Vec)
    (hq : pointQueryPositive st pos = false) (hm : st.mouseInSpace = false) :
    start_drag st pos = some { st with
      mousePos := pos
      prev_mouse_pos := some pos
      drag_joint := some (builtJoint st pos)
      spaceJoints := st.spaceJoints ++ [builtJoint st pos]
      mouseInSpace := true } := by
  simp [start_drag, hq, hm, builtJoint]

/-- Branch lemma: `update_drag` without an active joint returns the state
unchanged. -/
theorem update_drag_of_none (st : PlayerState) (pos : Vec) (dt : ℚ)
    (h : st.drag_joint = none) : update_drag st pos dt = some st := by
  unfold update_drag
  rw [h]

/-- Branch lemma: `update_drag` with an active joint and a recorded
previous sample updates the mouse body and the sample. -/
theorem update_drag_of_some (st : PlayerState) (pos : Vec) (dt : ℚ) (j : Joint)
    (prev : Vec) (hj : st.drag_joint = some j) (hp : st.prev_mouse_pos = some prev) :
    update_drag st pos dt = some { st with
      mouseVel := ((pos.1 - prev.1) / (if dt ≤ 0 then (1 : ℚ) / 1000000 else dt),
                   (pos.2 - prev.2) / (if dt ≤ 0 then (1 : ℚ) / 1000000 else dt))
      mousePos := pos
      prev_mouse_pos := some pos } := by
  simp [update_drag, hj, hp]

/-- Branch lemma: `end_drag` without an active joint returns the state
unchanged. -/
theorem end_drag_of_none (st : PlayerState) (h : st.drag_joint = none) :
    end_drag st = some st := by
  unfold end_drag
  rw [h]

/-- Branch lemma: `end_drag` with an active joint present in the space
(and the mouse body in the space) flings the body and cleans up. -/
theorem end_drag_of_some (st : PlayerState) (j : Joint)
    (hj : st.drag_joint = some j) (hin : j ∈ st.spaceJoints)
    (hm : st.mouseInSpace = true) :
    end_drag st = some { st with
      bodyVel := st.mouseVel
      spaceJoints := st.spaceJoints.erase j
      mouseInSpace := false
      drag_joint := none
      mouseVel := (0, 0) } := by
  simp [end_drag, hj, hin, hm]

/-- Branch lemma: `end_drag` with an active joint that is not in the space
(or with the mouse body not in the space) makes `space.remove` raise. -/
theorem end_drag_of_stale (st : PlayerState) (j : Joint)
    (hj : st.drag_joint = some j)
    (hc : ¬(j ∈ st.spaceJoints ∧ st.mouseInSpace = true)) :
    end_drag st = none := by
  simp only [end_drag, hj]
  rw [if_neg hc]

/-- Grabbing the freshly initialised player at `(110, 1100)` (25 units
from its centre, on the boundary) starts a drag and reaches
`draggingState`. -/
theorem start_drag_initPlayer :
    start_drag initPlayer (110, 1100) = some draggingState := by
  rw [start_drag_of_hit initPlayer (110, 1100)
    (by norm_num [pointQueryPositive, distSq, initPlayer, playerRadius, PLAYER_SIZE])
    rfl]
  norm_num [initPlayer, draggingState, dragJointInit, builtJoint, rotatedBy]

/-- C3: `start_drag pos` begins a drag exactly when the point query
reports a non-positive distance.  With a positive distance it returns the
state unchanged; with a non-positive distance (called from a state whose
mouse body is not yet in the space, i.e. Idle) it succeeds, the stored
joint's local anchor is `(pos - body.position).rotated(-body.angle)`, and
`pos` becomes the previous pointer sample. -/
theorem C3_start_drag (st : PlayerState) (pos : Vec) :
    (pointQueryPositive st pos = true → start_drag st pos = some st) ∧
    (pointQueryPositive st pos = false → st.mouseInSpace = false →
      ∃ st2 j, start_drag st pos = some st2 ∧ st2.drag_joint = some j ∧
        j.localAnchor = rotatedBy (pos.1 - st.bodyPos.1, pos.2 - st.bodyPos.2)
          st.angleCos (-st.angleSin) ∧
        st2.prev_mouse_pos = some pos) := by
  constructor
  · intro hq
    exact start_drag_of_pos st pos hq
  · intro hq hm
    exact ⟨_, builtJoint st pos, start_drag_of_hit st pos hq hm, rfl, rfl, rfl⟩

/-- C3 witness: from the initial state, `start_drag` at `(200, 1100)`
(outside the circle) is a no-op, and at `(110, 1100)` (on the circle) it
starts a drag with the stated anchor and previous sample. -/
theorem C3_start_drag_witness :
    (start_drag initPlayer (200, 1100) = some initPlayer) ∧
    (∃ st2 j, start_drag initPlayer (110, 1100) = some st2 ∧
      st2.drag_joint = some j ∧
      j.localAnchor = rotatedBy
        (((110 : ℚ), (1100 : ℚ)).1 - initPlayer.bodyPos.1,
         ((110 : ℚ), (1100 : ℚ)).2 - initPlayer.bodyPos.2)
        initPlayer.angleCos (-initPlayer.angleSin) ∧
      st2.prev_mouse_pos = some (110, 1100)) := by
  constructor
  · exact (C3_start_drag initPlayer (200, 1100)).1
      (by norm_num [pointQueryPositive, distSq, initPlayer, playerRadius, PLAYER_SIZE])
  · exact (C3_start_drag initPlayer (110, 1100)).2
      (by norm_num [pointQueryPositive, distSq, initPlayer, playerRadius, PLAYER_SIZE])
      rfl

/-- C4: while a drag is active (joint set, previous sample recorded),
`update_drag pos dt` with `dt > 0` sets the mouse body's velocity to
`(pos - prev) / dt`, its position to `pos`, and the previous sample to
`pos`; with `dt ≤ 0` it uses the epsilon `1e-6` in place of `dt`, so the
division is always by a positive rational and the velocity is finite. -/
theorem C4_update_drag (st : PlayerState) (pos : Vec) (dt : ℚ) (j : Joint) (prev : Vec)
    (hj : st.drag_joint = some j) (hp : st.prev_mouse_pos = some prev) :
    (0 < dt → update_drag st pos dt = some { st with
        mouseVel := ((pos.1 - prev.1) / dt, (pos.2 - prev.2) / dt)
        mousePos := pos
        prev_mouse_pos := some pos }) ∧
    (dt ≤ 0 → update_drag st pos dt = some { st with
        mouseVel := ((pos.1 - prev.1) / (1 / 1000000), (pos.2 - prev.2) / (1 / 1000000))
        mousePos := pos
        prev_mouse_pos := some pos }) := by
  unfold update_drag
  rw [hj, hp]
  constructor
  · intro hdt
    rw [if_neg (not_le.mpr hdt)]
  · intro hdt
    rw [if_pos hdt]

/-- C4 witness: one positive-`dt` update and one zero-`dt` update from the
concrete dragging state, with the resulting velocities spelled out. -/
theorem C4_update_drag_witness :
    (update_drag draggingState (120, 1100) (1 / 60) = some { draggingState with
        mouseVel := ((((120 : ℚ), (1100 : ℚ)).1 - ((110 : ℚ), (1100 : ℚ)).1) / (1 / 60),
                     (((120 : ℚ), (1100 : ℚ)).2 - ((110 : ℚ), (1100 : ℚ)).2) / (1 / 60))
        mousePos := (120, 1100)
        prev_mouse_pos := some (120, 1100) }) ∧
    (update_drag draggingState (120, 1100) 0 = some { draggingState with
        mouseVel := ((((120 : ℚ), (1100 : ℚ)).1 - ((110 : ℚ), (1100 : ℚ)).1) / (1 / 1000000),
                     (((120 : ℚ), (1100 : ℚ)).2 - ((110 : ℚ), (1100 : ℚ)).2) / (1 / 1000000))
        mousePos := (120, 1100)
        prev_mouse_pos := some (120, 1100) }) :=
  ⟨(C4_update_drag draggingState (120, 1100) (1 / 60) dragJointInit (110, 1100)
      rfl rfl).1 (by norm_num),
   (C4_update_drag draggingState (120, 1100) 0 dragJointInit (110, 1100)
      rfl rfl).2 le_rfl⟩

/-- C5: while a drag is active (joint set and present in the space, mouse
body in the space), `end_drag` copies the mouse body's velocity onto the
player body, removes the joint and the mouse body from the space, clears
the joint, and zeroes the mouse body's velocity. -/
theorem C5_end_drag (st : PlayerState) (j : Joint)
    (hj : st.drag_joint = some j) (hin : j ∈ st.spaceJoints)
    (hm : st.mouseInSpace = true) :
    end_drag st = some { st with
      bodyVel := st.mouseVel
      spaceJoints := st.spaceJoints.erase j
      mouseInSpace := false
      drag_joint := none
      mouseVel := (0, 0) } :=
  end_drag_of_some st j hj hin hm

/-- C5 witness: ending the concrete drag transfers the mouse velocity,
empties the space and returns to Idle. -/
theorem C5_end_drag_witness :
    end_drag draggingState = some { draggingState with
      bodyVel := draggingState.mouseVel
      spaceJoints := draggingState.spaceJoints.erase dragJointInit
      mouseInSpace := false
      drag_joint := none
      mouseVel := (0, 0) } :=
  C5_end_drag draggingState dragJointInit rfl (List.mem_singleton.mpr rfl) rfl

/-- C6: with no active drag, `update_drag` and `end_drag` return the state
unchanged; and after any successful `end_drag` the joint is cleared, so a
second `end_drag` is a no-op and the drag state stays absent. -/
theorem C6_drag_noops (st st2 : PlayerState) (pos : Vec) (dt : ℚ) :
    (st.drag_joint = none →
      update_drag st pos dt = some st ∧ end_drag st = some st) ∧
    (end_drag st = some st2 →
      end_drag st2 = some st2 ∧ st2.drag_joint = none) := by
  constructor
  · intro hIdle
    exact ⟨update_drag_of_none st pos dt hIdle, end_drag_of_none st hIdle⟩
  · intro h
    have h2 : st2.drag_joint = none := by
      cases hj : st.drag_joint with
      | none =>
        rw [end_drag_of_none st hj] at h
        simp only [Option.some.injEq] at h
        rw [← h, hj]
      | some j =>
        by_cases hc : j ∈ st.spaceJoints ∧ st.mouseInSpace = true
        · rw [end_drag_of_some st j hj hc.1 hc.2] at h
          simp only [Option.some.injEq] at h
          rw [← h]
        · rw [end_drag_of_stale st j hj hc] at h
          exact absurd h (by simp)
    exact ⟨end_drag_of_none st2 h2, h2⟩

/-- C6 witness: on the initial (Idle) state, `update_drag` and `end_drag`
are no-ops, and a second `end_drag` after a (no-op) first one is again a
no-op with the drag state still absent. -/
theorem C6_drag_noops_witness :
    (update_drag initPlayer (5, 5) (1 / 60) = some initPlayer ∧
      end_drag initPlayer = some initPlayer) ∧
    (end_drag initPlayer = some initPlayer ∧ initPlayer.drag_joint = none) :=
  ⟨(C6_drag_noops initPlayer initPlayer (5, 5) (1 / 60)).1 rfl,
   (C6_drag_noops initPlayer initPlayer (5, 5) (1 / 60)).2
     ((C6_drag_noops initPlayer initPlayer (5, 5) (1 / 60)).1 rfl).2⟩

/-- The drag-related slice of the space is in one of two shapes: nothing
drag-related added (Idle), or the mouse body together with exactly the
current `drag_joint` (Dragging). -/
def SpaceInv (st : PlayerState) : Prop :=
  (st.mouseInSpace = false ∧ st.spaceJoints = []) ∨
  (st.mouseInSpace = true ∧ ∃ j, st.drag_joint = some j ∧ st.spaceJoints = [j])

/-- A single drag-controller call preserves the space invariant. -/
theorem step_SpaceInv (st st2 : PlayerState) (op : Op)
    (hinv : SpaceInv st) (h : step st op = some st2) : SpaceInv st2 := by
  cases op with
  | startOp pos =>
    simp only [step] at h
    cases hq : pointQueryPositive st pos with
    | true =>
      rw [start_drag_of_pos st pos hq] at h
      simp only [Option.some.injEq] at h
      rw [← h]
      exact hinv
    | false =>
      cases hm : st.mouseInSpace with
      | true =>
        rw [start_drag_of_occupied st pos hq hm] at h
        exact absurd h (by simp)
      | false =>
        rw [start_drag_of_hit st pos hq hm] at h
        simp only [Option.some.injEq] at h
        rcases hinv with ⟨_, hsj⟩ | ⟨hm2, _⟩
        · right
          rw [← h]
          refine ⟨rfl, builtJoint st pos, rfl, ?_⟩
          show st.spaceJoints ++ [builtJoint st pos] = [builtJoint st pos]
          rw [hsj]
          rfl
        · rw [hm] at hm2
          exact absurd hm2 (by simp)
  | updateOp pos dt =>
    simp only [step] at h
    cases hj : st.drag_joint with
    | none =>
      rw [update_drag_of_none st pos dt hj] at h
      simp only [Option.some.injEq] at h
      rw [← h]
      exact hinv
    | some j =>
      cases hp : st.prev_mouse_pos with
      | none =>
        have hraise : update_drag st pos dt = none := by
          simp [update_drag, hj, hp]
        rw [hraise] at h
        exact absurd h (by simp)
      | some prev =>
        rw [update_drag_of_some st pos dt j prev hj hp] at h
        simp only [Option.some.injEq] at h
        rw [← h]
        rcases hinv with ⟨h1, h2⟩ | ⟨h1, j2, h2, h3⟩
        · exact Or.inl ⟨h1, h2⟩
        · exact Or.inr ⟨h1, j2, h2, h3⟩
  | endOp =>
    simp only [step] at h
    cases hj : st.drag_joint with
    | none =>
      rw [end_drag_of_none st hj] at h
      simp only [Option.some.injEq] at h
      rw [← h]
      exact hinv
    | some j =>
      by_cases hc : j ∈ st.spaceJoints ∧ st.mouseInSpace = true
      · rw [end_drag_of_some st j hj hc.1 hc.2] at h
        simp only [Option.some.injEq] at h
        rw [← h]
        left
        refine ⟨rfl, ?_⟩
        show st.spaceJoints.erase j = []
        rcases hinv with ⟨h1, _⟩ | ⟨_, j2, h2, h3⟩
        · rw [hc.2] at h1
          exact absurd h1 (by simp)
        · rw [hj] at h2
          simp only [Option.some.injEq] at h2
          rw [h3, h2]
          exact List.erase_cons_head j2 []
      · rw [end_drag_of_stale st j hj hc] at h
        exact absurd h (by simp)

/-- Any successful sequence of drag-controller calls preserves the space
invariant. -/
theorem runOps_SpaceInv (ops : List Op) (st st2 : PlayerState)
    (hinv : SpaceInv st) (h : runOps st ops = some st2) : SpaceInv st2 := by
  induction ops generalizing st with
  | nil =>
    simp only [runOps, Option.some.injEq] at h
    rw [← h]
    exact hinv
  | cons op rest ih =>
    cases hs : step st op with
    | none =>
      have : runOps st (op :: rest) = none := by
        show (step st op).bind _ = none
        rw [hs]
        rfl
      rw [this] at h
      exact absurd h (by simp)
    | some stm =>
      have hmid : runOps stm rest = some st2 := by
        have : runOps st (op :: rest) = runOps stm rest := by
          show (step st op).bind _ = _
          rw [hs]
          rfl
        rw [← this]
        exact h
      exact ih stm (step_SpaceInv st stm op hinv hs) hmid

/-- C7: in every state reachable from the initial player by any sequence
of `start_drag`, `update_drag` and `end_drag` calls, at most one drag
constraint is in the space; in particular a `start_drag` issued while a
drag is active never yields a state with a second concurrent constraint
(the duplicate `space.add` raises instead). -/
theorem C7_at_most_one_constraint (ops : List Op) (st2 : PlayerState)
    (h : runOps initPlayer ops = some st2) : st2.spaceJoints.length ≤ 1 := by
  have hinv : SpaceInv initPlayer := Or.inl ⟨rfl, rfl⟩
  rcases runOps_SpaceInv ops initPlayer st2 hinv h with ⟨_, h2⟩ | ⟨_, j, _, h2⟩ <;>
    rw [h2] <;> simp

/-- C7 witness: the state reached by one successful `start_drag` carries
exactly one constraint, hence at most one. -/
theorem C7_at_most_one_constraint_witness :
    draggingState.spaceJoints.length ≤ 1 :=
  C7_at_most_one_constraint [Op.startOp (110, 1100)] draggingState
    (by
      show (step initPlayer (Op.startOp (110, 1100))).bind _ = some draggingState
      rw [show step initPlayer (Op.startOp (110, 1100)) = some draggingState from
        start_drag_initPlayer]
      rfl)

/-- C8: loading the one-record level `a=(0,0), b=(100,0), friction=0.5`
yields exactly one static zero-radius segment with those endpoints and
friction `0.5`; and for every record of any level that omits the friction
field, the segment produced for it has friction `1.0`. -/
theorem C8_load_level :
    (load_level [⟨(0, 0), (100, 0), some (1 / 2)⟩] =
      [⟨(0, 0), (100, 0), 0, true, 1 / 2⟩]) ∧
    ∀ (recs : List SegmentRecord) (i : ℕ) (hi : i < recs.length),
      (recs.get ⟨i, hi⟩).friction = none →
      ((load_level recs).get ⟨i, by simpa [load_level] using hi⟩).friction = 1 := by
  constructor
  · rfl
  · intro recs
    induction recs with
    | nil =>
      intro i hi
      exact absurd hi (by simp)
    | cons r rest ih =>
      intro i hi hf
      cases i with
      | zero =>
        show (segOfRecord r).friction = 1
        have hf2 : r.friction = none := hf
        simp only [segOfRecord]
        rw [hf2]
        rfl
      | succ n =>
        have hi2 : n < rest.length := by simpa using hi
        exact ih n hi2 hf

/-- C8 witness: the concrete one-record level, and a record with no
friction field producing a segment of friction `1`. -/
theorem C8_load_level_witness :
    (load_level [⟨(0, 0), (100, 0), some (1 / 2)⟩] =
      [⟨(0, 0), (100, 0), 0, true, 1 / 2⟩]) ∧
    ((load_level [⟨(0, 0), (1, 1), none⟩]).get
      ⟨0, by simp [load_level]⟩).friction = 1 :=
  ⟨C8_load_level.1, C8_load_level.2 [⟨(0, 0), (1, 1), none⟩] 0 (by simp) rfl⟩

/-- With no active joint, any sequence of `update_drag` and `end_drag`
calls returns the state unchanged. -/
theorem runOps_of_idle (st : PlayerState) (ops : List Op)
    (hIdle : st.drag_joint = none)
    (hOps : ∀ op ∈ ops, (∃ p dt, op = Op.updateOp p dt) ∨ op = Op.endOp) :
    runOps st ops = some st := by
  induction ops with
  | nil => rfl
  | cons op rest ih =>
    have hop := hOps op (List.mem_cons_self op rest)
    have hrest : ∀ o ∈ rest, (∃ p dt, o = Op.updateOp p dt) ∨ o = Op.endOp :=
      fun o ho => hOps o (List.mem_cons_of_mem op ho)
    have hstep : step st op = some st := by
      rcases hop with ⟨p, dt, rfl⟩ | rfl
      · exact update_drag_of_none st p dt hIdle
      · exact end_drag_of_none st hIdle
    show (step st op).bind _ = some st
    rw [hstep]
    exact ih hrest

/-- C9: a pointer-down strictly outside the player's shape, followed by
any number of pointer-move updates and the pointer-up, leaves the body's
velocity unchanged: the whole gesture is a no-op because no drag ever
starts. -/
theorem C9_outside_gesture (st : PlayerState) (pos : Vec) (updates : List Op)
    (st2 : PlayerState)
    (hIdle : st.drag_joint = none)
    (hOut : pointQueryPositive st pos = true)
    (hUpd : ∀ op ∈ updates, ∃ p dt, op = Op.updateOp p dt)
    (h : runOps st (Op.startOp pos :: (updates ++ [Op.endOp])) = some st2) :
    st2.bodyVel = st.bodyVel := by
  have h1 : step st (Op.startOp pos) = some st := start_drag_of_pos st pos hOut
  have h2 : runOps st (updates ++ [Op.endOp]) = some st := by
    apply runOps_of_idle st _ hIdle
    intro op hop
    rcases List.mem_append.mp hop with hm | hm
    · exact Or.inl (hUpd op hm)
    · right
      simpa using hm
  have h3 : runOps st (Op.startOp pos :: (updates ++ [Op.endOp])) = some st := by
    show (step st (Op.startOp pos)).bind _ = some st
    rw [h1]
    exact h2
  rw [h3] at h
  simp only [Option.some.injEq] at h
  rw [← h]

/-- C9 witness: the concrete gesture down at `(200, 1100)` (outside the
circle), one move, then up, starting from the initial player, ends with
the initial velocity. -/
theorem C9_outside_gesture_witness : initPlayer.bodyVel = initPlayer.bodyVel :=
  C9_outside_gesture initPlayer (200, 1100) [Op.updateOp (210, 1100) (1 / 60)]
    initPlayer rfl
    (by norm_num [pointQueryPositive, distSq, initPlayer, playerRadius, PLAYER_SIZE])
    (fun op hop => by
      simp only [List.mem_singleton] at hop
      exact ⟨(210, 1100), 1 / 60, hop⟩)
    (by
      have hs : step initPlayer (Op.startOp (200, 1100)) = some initPlayer :=
        start_drag_of_pos initPlayer (200, 1100)
          (by norm_num [pointQueryPositive, distSq, initPlayer, playerRadius, PLAYER_SIZE])
      have hu : step initPlayer (Op.updateOp (210, 1100) (1 / 60)) = some initPlayer :=
        update_drag_of_none initPlayer (210, 1100) (1 / 60) rfl
      have he : step initPlayer Op.endOp = some initPlayer :=
        end_drag_of_none initPlayer rfl
      show (step initPlayer (Op.startOp (200, 1100))).bind _ = some initPlayer
      rw [hs]
      show (step initPlayer (Op.updateOp (210, 1100) (1 / 60))).bind _ = some initPlayer
      rw [hu]
      show (step initPlayer Op.endOp).bind _ = some initPlayer
      rw [he]
      rfl)

end Game
